import Mathlib

/-!
Verification of the VGA text-mode console writer (`src/vga.rs`).

The Rust source is shallowly embedded here.  The VGA buffer
(`Buffer { chars: [[Character; 80]; 25] }`) is modelled as a total
function `Nat → Nat → Character`; every grid write whose indices come
from cursor state goes through `setCell`, which performs the same
bounds check Rust array indexing performs and returns `none` on the
out-of-bounds case (a Rust panic).  Loops whose indices are the literal
ranges `0..BUFFER_HEIGHT` / `0..BUFFER_WIDTH` (in `clear_screen` and
`scroll`) always pass the bounds check, and are embedded as folds over
`List.range` using the unchecked update `updCell`.

Operations that can panic (`write_byte`, `write_str`) return
`Option State`; the total operations (`clear_screen`, `set_cursor`,
`set_color`, `new_line`, `scroll`) return `State`.
-/

namespace Vga

/-- Rust: `const BUFFER_WIDTH: usize = 80;` -/
def BUFFER_WIDTH : Nat := 80

/-- Rust: `const BUFFER_HEIGHT: usize = 25;` -/
def BUFFER_HEIGHT : Nat := 25

/-- Rust: `const TAB_WIDTH: usize = 4;` -/
def TAB_WIDTH : Nat := 4

/-- Rust `Color::new`: `(background as u8) << 4 | (foreground as u8)`.
Both arguments are 4-bit values (the `HalfColor` enumeration is 0..15),
so the shift-or is exact arithmetic. -/
def Color.new (foreground background : Nat) : Nat :=
  background * 16 + foreground

/-- Rust: `struct Character { char_code: u8, color: Color }` -/
structure Character where
  char_code : Nat
  color : Nat
deriving DecidableEq

/-- The VGA buffer `chars: [[Character; 80]; 25]`, as a function from
(row, column) to cell.  Only indices `< 25` / `< 80` are meaningful. -/
abbrev Grid := Nat → Nat → Character

/-- The `Writer` state: column, row, active color, and the buffer. -/
@[ext] structure State where
  col : Nat
  row : Nat
  color : Nat
  grid : Grid

/-- The blank cell `Character { char_code: b' ', color }`. -/
def blank (color : Nat) : Character := ⟨32, color⟩

/-- Unchecked in-place cell update, used for loop bodies whose indices
are literal in-range loop counters. -/
def updCell (g : Grid) (r c : Nat) (ch : Character) : Grid :=
  fun r' c' => if r' = r ∧ c' = c then ch else g r' c'

/-- Checked cell update: `buffer.chars[r][c] = ch`.  Rust array indexing
bounds-checks `r < 25` and `c < 80` and panics otherwise; the panic is
modelled as `none`. -/
def setCell (g : Grid) (r c : Nat) (ch : Character) : Option Grid :=
  if r < BUFFER_HEIGHT ∧ c < BUFFER_WIDTH then some (updCell g r c ch) else none

/-- The inner loop of `scroll` for a fixed destination row `y`:
`for x in 0..n { chars[y][x] = chars[y+1][x] }`, reading the current
(partially updated) buffer exactly as the Rust loop does. -/
def copyRowUpto (g : Grid) (y n : Nat) : Grid :=
  (List.range n).foldl (fun g' x => updCell g' y x (g' (y + 1) x)) g

/-- One iteration of `scroll`'s outer loop: copy row `y+1` into row `y`. -/
def copyRow (g : Grid) (y : Nat) : Grid :=
  copyRowUpto g y BUFFER_WIDTH

/-- The outer loop of `scroll`: `for y in 0..(BUFFER_HEIGHT-1) { ... }`. -/
def scrollGrid (g : Grid) : Grid :=
  (List.range (BUFFER_HEIGHT - 1)).foldl copyRow g

/-- Embeds `chars[BUFFER_HEIGHT - 1] = [blank; BUFFER_WIDTH]`: replace the whole
row `r` (all `BUFFER_WIDTH` cells) with `ch`. -/
def setRow (g : Grid) (r : Nat) (ch : Character) : Grid :=
  fun r' c' => if r' = r ∧ c' < BUFFER_WIDTH then ch else g r' c'

/-- Rust `Writer::scroll`: shift every row up by one, then blank the last row
with the current color.  All loop indices are literal in-range values, so
scroll never panics. -/
def scroll (s : State) : State :=
  { s with grid :=
      setRow (scrollGrid s.grid) (BUFFER_HEIGHT - 1) (blank s.color) }

/-- Rust `Writer::new_line`: `col = 0; if row < BUFFER_HEIGHT - 1 { row += 1 }
else { scroll() }`. -/
def new_line (s : State) : State :=
  if s.row < BUFFER_HEIGHT - 1 then
    { s with col := 0, row := s.row + 1 }
  else
    scroll { s with col := 0 }

/-- The `_` (printable byte) arm of `write_byte`: wrap if `col >= 80`,
then `chars[row][col] = Character { char_code: byte, color }` and
`col += 1`. -/
def writeRaw (s : State) (byte : Nat) : Option State :=
  let s1 := if s.col ≥ BUFFER_WIDTH then new_line s else s
  match setCell s1.grid s1.row s1.col ⟨byte, s1.color⟩ with
  | some g => some { s1 with grid := g, col := s1.col + 1 }
  | none => none

/-- The `\t` arm of `write_byte`: the loop
`for _ in 0..(TAB_WIDTH - (self.col % TAB_WIDTH)) { self.write_byte(b' ') }`.
The iteration count is fixed on entry; each iteration is `write_byte(b' ')`,
and since `b' '` falls to the `_` arm that call is exactly `writeRaw _ 32`. -/
def writeSpaces : State → Nat → Option State
  | s, 0 => some s
  | s, n + 1 =>
      match writeRaw s 32 with
      | some s' => writeSpaces s' n
      | none => none

/-- The `0x08` (backspace) arm of `write_byte`. -/
def backspace (s : State) : Option State :=
  if s.col = 0 ∧ s.row = 0 then
    some s
  else if s.col = 0 then
    match setCell s.grid s.row s.col (blank s.color) with
    | some g => some { s with grid := g, row := s.row - 1, col := BUFFER_WIDTH - 1 }
    | none => none
  else
    match setCell s.grid s.row s.col (blank s.color) with
    | some g => some { s with grid := g, col := s.col - 1 }
    | none => none

/-- Rust `Writer::write_byte`: dispatch on the byte, in the source's match
order (`\n` = 10, `\r` = 13, `\t` = 9, backspace = 0x08, then `_`). -/
def write_byte (s : State) (byte : Nat) : Option State :=
  if byte = 10 then some (new_line s)
  else if byte = 13 then some { s with col := 0 }
  else if byte = 9 then writeSpaces s (TAB_WIDTH - s.col % TAB_WIDTH)
  else if byte = 8 then backspace s
  else writeRaw s byte

/-- Rust `Writer::write_str`: write every byte in order via `write_byte`;
a panic (none) aborts the remainder. -/
def write_str : State → List Nat → Option State
  | s, [] => some s
  | s, b :: rest =>
      match write_byte s b with
      | some s' => write_str s' rest
      | none => none

/-- The grid after `clear_screen`'s double loop
`for row in 0..BUFFER_HEIGHT { for col in 0..BUFFER_WIDTH { buf.chars[row][col] = blank } }`. -/
def clearGrid (g : Grid) (bl : Character) : Grid :=
  (List.range BUFFER_HEIGHT).foldl
    (fun g' r => (List.range BUFFER_WIDTH).foldl (fun g'' c => updCell g'' r c bl) g') g

/-- Rust `Writer::clear_screen`: reset the cursor to (0,0) and blank every
cell with the current color. -/
def clear_screen (s : State) : State :=
  { s with col := 0, row := 0, grid := clearGrid s.grid (blank s.color) }

/-- The local `clamp` helper inside `Writer::set_cursor`. -/
def clamp (value mn mx : Nat) : Nat :=
  if value < mn then mn else if value > mx then mx else value

/-- Rust `Writer::set_cursor`: `col = clamp(x, 0, BUFFER_WIDTH); row = clamp(y, 0, BUFFER_HEIGHT)`.
Note the clamp ceiling is the dimension itself, one past the last index. -/
def set_cursor (s : State) (x y : Nat) : State :=
  { s with col := clamp x 0 BUFFER_WIDTH, row := clamp y 0 BUFFER_HEIGHT }

/-- Rust `Writer::set_color`: replace the active color. -/
def set_color (s : State) (color : Nat) : State :=
  { s with color := color }

/-- The public operations of the `Writer` (the complete caller-facing
surface, §6 of the design). -/
inductive Op where
  | writeByte (b : Nat)
  | writeStr (bs : List Nat)
  | clearScreen
  | setCursor (x y : Nat)
  | setColor (c : Nat)

/-- Apply a public operation; `none` is a panic. -/
def Op.apply : Op → State → Option State
  | .writeByte b, s => write_byte s b
  | .writeStr bs, s => write_str s bs
  | .clearScreen, s => some (clear_screen s)
  | .setCursor x y, s => some (set_cursor s x y)
  | .setColor c, s => some (set_color s c)

/-- The initial `Writer` of the static `Console`: `col: 0, row: 0,
color: Color::new(White, Black)`.  The boot-time contents of the mapped
VGA memory are unknown; the initial grid is left as a parameter where it
matters and fixed to an arbitrary concrete value here. -/
def initGrid : Grid := fun _ _ => ⟨0, 0⟩

/-- The initial writer state with a concrete (arbitrary) initial grid. -/
def initState : State :=
  { col := 0, row := 0, color := Color.new 15 0, grid := initGrid }

/-- A byte that falls to the `_` arm of `write_byte`'s match. -/
def Printable (b : Nat) : Prop :=
  b ≠ 10 ∧ b ≠ 13 ∧ b ≠ 9 ∧ b ≠ 8

instance (b : Nat) : Decidable (Printable b) := by
  unfold Printable; infer_instance

/-! ### Characterization of the grid loops -/

lemma updCell_apply (g : Grid) (r c : Nat) (ch : Character) (r' c' : Nat) :
    updCell g r c ch r' c' = if r' = r ∧ c' = c then ch else g r' c' := rfl

lemma copyRowUpto_succ (g : Grid) (y n : Nat) :
    copyRowUpto g y (n + 1)
      = updCell (copyRowUpto g y n) y n (copyRowUpto g y n (y + 1) n) := by
  unfold copyRowUpto
  rw [List.range_succ, List.foldl_append]
  rfl

lemma copyRowUpto_apply (g : Grid) (y : Nat) :
    ∀ n r c, copyRowUpto g y n r c = if r = y ∧ c < n then g (y + 1) c else g r c := by
  intro n
  induction n with
  | zero =>
      intro r c
      simp [copyRowUpto]
  | succ n ih =>
      intro r c
      rw [copyRowUpto_succ, updCell_apply, ih, ih]
      simp only [ite_self]
      by_cases hr : r = y
      · subst hr
        by_cases hc : c = n
        · subst hc
          simp [Nat.lt_succ_self, Nat.lt_irrefl]
        · by_cases hlt : c < n
          · simp [hc, hlt, Nat.lt_succ_of_lt hlt]
          · have : ¬ c < n + 1 := by omega
            simp [hc, hlt, this]
      · simp [hr]

lemma copyRow_apply (g : Grid) (y r c : Nat) :
    copyRow g y r c = if r = y ∧ c < BUFFER_WIDTH then g (y + 1) c else g r c :=
  copyRowUpto_apply g y BUFFER_WIDTH r c

lemma scrollUpto_apply :
    ∀ (n : Nat) (g : Grid) (r c : Nat), c < BUFFER_WIDTH →
      ((List.range n).foldl copyRow g) r c = if r < n then g (r + 1) c else g r c := by
  intro n
  induction n with
  | zero =>
      intro g r c _
      simp
  | succ n ih =>
      intro g r c hc
      rw [List.range_succ, List.foldl_append]
      simp only [List.foldl_cons, List.foldl_nil]
      rw [copyRow_apply]
      by_cases hr : r = n
      · subst hr
        rw [ih _ _ _ hc]
        simp [hc, Nat.lt_irrefl, Nat.lt_succ_self]
      · simp only [hr, false_and, if_false]
        rw [ih _ _ _ hc]
        by_cases hlt : r < n
        · simp [hlt, Nat.lt_succ_of_lt hlt]
        · have : ¬ r < n + 1 := by omega
          simp [hlt, this]

lemma scrollGrid_apply (g : Grid) (r c : Nat) (hc : c < BUFFER_WIDTH) :
    scrollGrid g r c = if r < BUFFER_HEIGHT - 1 then g (r + 1) c else g r c :=
  scrollUpto_apply (BUFFER_HEIGHT - 1) g r c hc

lemma setRow_apply (g : Grid) (r : Nat) (ch : Character) (r' c' : Nat) :
    setRow g r ch r' c' = if r' = r ∧ c' < BUFFER_WIDTH then ch else g r' c' := rfl

lemma scroll_col (s : State) : (scroll s).col = s.col := rfl

lemma scroll_row (s : State) : (scroll s).row = s.row := rfl

lemma scroll_color (s : State) : (scroll s).color = s.color := rfl

lemma scroll_grid_last (s : State) (c : Nat) (hc : c < BUFFER_WIDTH) :
    (scroll s).grid (BUFFER_HEIGHT - 1) c = blank s.color := by
  show setRow (scrollGrid s.grid) (BUFFER_HEIGHT - 1) (blank s.color) (BUFFER_HEIGHT - 1) c
      = blank s.color
  rw [setRow_apply]
  simp [hc]

lemma scroll_grid_shift (s : State) (r c : Nat)
    (hr : r < BUFFER_HEIGHT - 1) (hc : c < BUFFER_WIDTH) :
    (scroll s).grid r c = s.grid (r + 1) c := by
  show setRow (scrollGrid s.grid) (BUFFER_HEIGHT - 1) (blank s.color) r c = s.grid (r + 1) c
  rw [setRow_apply]
  have hne : r ≠ BUFFER_HEIGHT - 1 := by omega
  rw [if_neg (by simp [hne])]
  rw [scrollGrid_apply s.grid r c hc, if_pos hr]

lemma clearRowUpto_apply (bl : Character) (r : Nat) (g : Grid) :
    ∀ n r' c', ((List.range n).foldl (fun g'' c => updCell g'' r c bl) g) r' c'
      = if r' = r ∧ c' < n then bl else g r' c' := by
  intro n
  induction n with
  | zero =>
      intro r' c'
      simp
  | succ n ih =>
      intro r' c'
      rw [List.range_succ, List.foldl_append]
      simp only [List.foldl_cons, List.foldl_nil]
      rw [updCell_apply, ih]
      by_cases hr : r' = r
      · subst hr
        by_cases hc : c' = n
        · subst hc
          simp [Nat.lt_succ_self]
        · by_cases hlt : c' < n
          · simp [hc, hlt, Nat.lt_succ_of_lt hlt]
          · have : ¬ c' < n + 1 := by omega
            simp [hc, hlt, this]
      · simp [hr]

lemma clearUpto_apply (bl : Character) (g : Grid) :
    ∀ n r c, ((List.range n).foldl
        (fun g' r => (List.range BUFFER_WIDTH).foldl (fun g'' c => updCell g'' r c bl) g') g) r c
      = if r < n ∧ c < BUFFER_WIDTH then bl else g r c := by
  intro n
  induction n with
  | zero =>
      intro r c
      simp
  | succ n ih =>
      intro r c
      rw [List.range_succ, List.foldl_append]
      simp only [List.foldl_cons, List.foldl_nil]
      rw [clearRowUpto_apply, ih]
      by_cases hr : r = n
      · subst hr
        by_cases hc : c < BUFFER_WIDTH
        · simp [hc, Nat.lt_irrefl, Nat.lt_succ_self]
        · simp [hc]
      · simp only [hr, false_and, if_false]
        by_cases hlt : r < n
        · simp [hlt, Nat.lt_succ_of_lt hlt]
        · have h2 : ¬ r < n + 1 := by omega
          simp [hlt, h2]

lemma clearGrid_apply (g : Grid) (bl : Character) (r c : Nat) :
    clearGrid g bl r c = if r < BUFFER_HEIGHT ∧ c < BUFFER_WIDTH then bl else g r c :=
  clearUpto_apply bl g BUFFER_HEIGHT r c

/-! ### Characterization of the state transitions -/

lemma new_line_col (s : State) : (new_line s).col = 0 := by
  unfold new_line
  split <;> rfl

lemma new_line_row (s : State) :
    (new_line s).row = if s.row < BUFFER_HEIGHT - 1 then s.row + 1 else s.row := by
  unfold new_line
  split <;> rfl

lemma new_line_color (s : State) : (new_line s).color = s.color := by
  unfold new_line
  split <;> rfl

lemma new_line_row_lt (s : State) (h : s.row < BUFFER_HEIGHT) :
    (new_line s).row < BUFFER_HEIGHT := by
  rw [new_line_row]
  split <;> omega

/-- A successful `writeRaw` from an in-range cursor: no wrap, the cell at
the cursor is written, and the column advances by one. -/
lemma writeRaw_lt (s : State) (b : Nat)
    (hc : s.col < BUFFER_WIDTH) (hr : s.row < BUFFER_HEIGHT) :
    writeRaw s b
      = some { s with grid := updCell s.grid s.row s.col ⟨b, s.color⟩, col := s.col + 1 } := by
  unfold writeRaw setCell
  have hge : ¬ s.col ≥ BUFFER_WIDTH := by omega
  simp [hge, hr, hc]

/-- A successful `writeRaw` from the transient `col = BUFFER_WIDTH`
state: wrap first, then write at column 0 of the new row. -/
lemma writeRaw_wrap (s : State) (b : Nat)
    (hc : s.col = BUFFER_WIDTH) (hr : s.row < BUFFER_HEIGHT) :
    writeRaw s b
      = some { new_line s with
          grid := updCell (new_line s).grid (new_line s).row 0 ⟨b, (new_line s).color⟩,
          col := 1 } := by
  unfold writeRaw setCell
  have hge : s.col ≥ BUFFER_WIDTH := by omega
  have h0 : (new_line s).col = 0 := new_line_col s
  have hrow : (new_line s).row < BUFFER_HEIGHT := new_line_row_lt s hr
  simp only [hge, if_pos, ge_iff_le, le_refl, if_true]
  rw [h0]
  simp [hrow, BUFFER_WIDTH]

/-- Lemma: `writeRaw` fails (panics) exactly when the cell it addresses is out
of the grid: no wrap and `row ≥ BUFFER_HEIGHT`. -/
lemma writeRaw_nowrap_fail (s : State) (b : Nat)
    (hc : s.col < BUFFER_WIDTH) (hr : ¬ s.row < BUFFER_HEIGHT) :
    writeRaw s b = none := by
  unfold writeRaw setCell
  have hge : ¬ s.col ≥ BUFFER_WIDTH := by omega
  simp [hge, hr]

/-- Lemma: `writeRaw` from `col ≥ BUFFER_WIDTH`: wrap, then the write succeeds
iff the post-wrap row is in range. -/
lemma writeRaw_ge (s : State) (b : Nat) (hcw : s.col ≥ BUFFER_WIDTH) :
    writeRaw s b
      = if (new_line s).row < BUFFER_HEIGHT
        then some { new_line s with
            grid := updCell (new_line s).grid (new_line s).row 0 ⟨b, (new_line s).color⟩,
            col := 1 }
        else none := by
  unfold writeRaw setCell
  simp only [hcw, if_pos, ge_iff_le, le_refl, if_true]
  rw [new_line_col]
  by_cases hr : (new_line s).row < BUFFER_HEIGHT
  · simp [hr, BUFFER_WIDTH]
  · simp [hr]

/-- Any successful `writeRaw` leaves the cursor within
`col ≤ BUFFER_WIDTH` and `row < BUFFER_HEIGHT`. -/
lemma writeRaw_some_bounds (s : State) (b : Nat) (s' : State)
    (h : writeRaw s b = some s') :
    s'.col ≤ BUFFER_WIDTH ∧ s'.row < BUFFER_HEIGHT := by
  by_cases hcw : s.col ≥ BUFFER_WIDTH
  · rw [writeRaw_ge s b hcw] at h
    by_cases hr : (new_line s).row < BUFFER_HEIGHT
    · rw [if_pos hr] at h
      simp only [Option.some.injEq] at h
      subst h
      exact ⟨by simp [BUFFER_WIDTH], hr⟩
    · rw [if_neg hr] at h
      cases h
  · have hc : s.col < BUFFER_WIDTH := by omega
    by_cases hr : s.row < BUFFER_HEIGHT
    · rw [writeRaw_lt s b hc hr] at h
      simp only [Option.some.injEq] at h
      subst h
      exact ⟨by simp; omega, hr⟩
    · rw [writeRaw_nowrap_fail s b hc hr] at h
      cases h

/-- Lemma: `write_byte` on a printable byte is the `_` arm. -/
lemma write_byte_printable (s : State) (b : Nat) (hb : Printable b) :
    write_byte s b = writeRaw s b := by
  obtain ⟨h1, h2, h3, h4⟩ := hb
  unfold write_byte
  simp [h1, h2, h3, h4]

lemma write_byte_newline (s : State) : write_byte s 10 = some (new_line s) := rfl

lemma write_byte_cr (s : State) : write_byte s 13 = some { s with col := 0 } := rfl

lemma write_byte_tab (s : State) :
    write_byte s 9 = writeSpaces s (TAB_WIDTH - s.col % TAB_WIDTH) := rfl

lemma write_byte_bs (s : State) : write_byte s 8 = backspace s := rfl

/-! ### Backspace case analysis -/

lemma backspace_origin (s : State) (h0 : s.col = 0) (h1 : s.row = 0) :
    backspace s = some s := by
  unfold backspace
  simp [h0, h1]

lemma backspace_col0 (s : State) (h0 : s.col = 0) (h1 : s.row ≠ 0)
    (h2 : s.row < BUFFER_HEIGHT) :
    backspace s
      = some { s with grid := updCell s.grid s.row 0 (blank s.color),
                      row := s.row - 1, col := BUFFER_WIDTH - 1 } := by
  unfold backspace setCell
  rw [if_neg (by simp [h1])]
  rw [if_pos h0]
  rw [h0]
  rw [if_pos ⟨h2, by norm_num [BUFFER_WIDTH]⟩]

lemma backspace_colpos (s : State) (h0 : s.col ≠ 0)
    (hc : s.col < BUFFER_WIDTH) (hr : s.row < BUFFER_HEIGHT) :
    backspace s
      = some { s with grid := updCell s.grid s.row s.col (blank s.color),
                      col := s.col - 1 } := by
  unfold backspace setCell
  rw [if_neg (by simp [h0])]
  rw [if_neg h0]
  rw [if_pos ⟨hr, hc⟩]

/-! ### Tab expansion -/

/-- The tab loop is exactly `write_str` on the corresponding run of
plain spaces: `write_byte` on `b' '` falls to the `_` arm. -/
lemma writeSpaces_eq_write_str :
    ∀ (n : Nat) (s : State), writeSpaces s n = write_str s (List.replicate n 32) := by
  intro n
  induction n with
  | zero =>
      intro s
      rfl
  | succ n ih =>
      intro s
      show writeSpaces s (n + 1) = write_str s (32 :: List.replicate n 32)
      unfold writeSpaces write_str
      have hb : write_byte s 32 = writeRaw s 32 := write_byte_printable s 32 (by decide)
      rw [hb]
      cases writeRaw s 32 with
      | none => rfl
      | some s1 => exact ih s1

/-- Writing `n` spaces from an in-range cursor that has room for them:
the column advances by exactly `n` and the row is untouched. -/
lemma writeSpaces_ok :
    ∀ (n : Nat) (s : State), s.col + n ≤ BUFFER_WIDTH → s.row < BUFFER_HEIGHT →
      ∃ s', writeSpaces s n = some s' ∧ s'.col = s.col + n ∧ s'.row = s.row := by
  intro n
  induction n with
  | zero =>
      intro s _ _
      exact ⟨s, rfl, by omega, rfl⟩
  | succ n ih =>
      intro s hc hr
      have hlt : s.col < BUFFER_WIDTH := by omega
      have hstep := writeRaw_lt s 32 hlt hr
      obtain ⟨s', hs', hcol, hrow⟩ :=
        ih { s with grid := updCell s.grid s.row s.col ⟨32, s.color⟩, col := s.col + 1 }
          (by simp; omega) (by simpa using hr)
      refine ⟨s', ?_, ?_, by simpa using hrow⟩
      · show writeSpaces s (n + 1) = some s'
        unfold writeSpaces
        rw [hstep]
        exact hs'
      · rw [hcol]
        simp
        omega

/-! ### The cursor-bounds invariant -/

/-- The (amended) cursor invariant: the column never exceeds
`BUFFER_WIDTH` and the row never exceeds `BUFFER_HEIGHT`. -/
def CursorInv (s : State) : Prop :=
  s.col ≤ BUFFER_WIDTH ∧ s.row ≤ BUFFER_HEIGHT

lemma writeSpaces_some_inv :
    ∀ (n : Nat) (s : State) (s' : State), CursorInv s →
      writeSpaces s n = some s' → CursorInv s' := by
  intro n
  induction n with
  | zero =>
      intro s s' hs h
      cases h
      exact hs
  | succ n ih =>
      intro s s' hs h
      unfold writeSpaces at h
      revert h
      cases hw : writeRaw s 32 with
      | none => intro h; cases h
      | some s1 =>
          intro h
          obtain ⟨h1, h2⟩ := writeRaw_some_bounds s 32 s1 hw
          exact ih s1 s' ⟨h1, by omega⟩ h

lemma backspace_some_inv (s s' : State) (hs : CursorInv s)
    (h : backspace s = some s') : CursorInv s' := by
  unfold backspace setCell at h
  by_cases h00 : s.col = 0 ∧ s.row = 0
  · rw [if_pos h00] at h
    cases h
    exact hs
  · rw [if_neg h00] at h
    by_cases hc0 : s.col = 0
    · rw [if_pos hc0] at h
      by_cases hg : s.row < BUFFER_HEIGHT ∧ s.col < BUFFER_WIDTH
      · obtain ⟨hg1, hg2⟩ := hg
        rw [if_pos ⟨hg1, hg2⟩] at h
        simp only [Option.some.injEq] at h
        subst h
        exact ⟨by simp [BUFFER_WIDTH], by simp; omega⟩
      · rw [if_neg hg] at h
        cases h
    · rw [if_neg hc0] at h
      by_cases hg : s.row < BUFFER_HEIGHT ∧ s.col < BUFFER_WIDTH
      · obtain ⟨hg1, hg2⟩ := hg
        rw [if_pos ⟨hg1, hg2⟩] at h
        simp only [Option.some.injEq] at h
        subst h
        exact ⟨by simp; omega, by simp; omega⟩
      · rw [if_neg hg] at h
        cases h

lemma new_line_inv (s : State) (hs : CursorInv s) : CursorInv (new_line s) := by
  obtain ⟨h1, h2⟩ := hs
  refine ⟨by rw [new_line_col]; simp [BUFFER_WIDTH], ?_⟩
  rw [new_line_row]
  split <;> omega

lemma write_byte_some_inv (s : State) (b : Nat) (s' : State) (hs : CursorInv s)
    (h : write_byte s b = some s') : CursorInv s' := by
  unfold write_byte at h
  by_cases h10 : b = 10
  · rw [if_pos h10] at h
    cases h
    exact new_line_inv s hs
  · rw [if_neg h10] at h
    by_cases h13 : b = 13
    · rw [if_pos h13] at h
      cases h
      exact ⟨by simp [BUFFER_WIDTH], hs.2⟩
    · rw [if_neg h13] at h
      by_cases h9 : b = 9
      · rw [if_pos h9] at h
        exact writeSpaces_some_inv _ s s' hs h
      · rw [if_neg h9] at h
        by_cases h8 : b = 8
        · rw [if_pos h8] at h
          exact backspace_some_inv s s' hs h
        · rw [if_neg h8] at h
          obtain ⟨h1, h2⟩ := writeRaw_some_bounds s b s' h
          exact ⟨h1, by omega⟩

lemma write_str_some_inv :
    ∀ (bs : List Nat) (s s' : State), CursorInv s →
      write_str s bs = some s' → CursorInv s' := by
  intro bs
  induction bs with
  | nil =>
      intro s s' hs h
      cases h
      exact hs
  | cons b rest ih =>
      intro s s' hs h
      unfold write_str at h
      revert h
      cases hw : write_byte s b with
      | none => intro h; cases h
      | some s1 =>
          intro h
          exact ih s1 s' (write_byte_some_inv s b s1 hs hw) h

lemma clamp_le (x mx : Nat) : clamp x 0 mx ≤ mx := by
  unfold clamp
  split
  · omega
  · split <;> omega

/-! ### Runs of printable bytes -/

lemma write_str_append (l1 l2 : List Nat) :
    ∀ s : State, write_str s (l1 ++ l2)
      = match write_str s l1 with
        | some t => write_str t l2
        | none => none := by
  induction l1 with
  | nil =>
      intro s
      rfl
  | cons b rest ih =>
      intro s
      have hstep : ∀ (t : State) (l : List Nat) (bb : Nat),
          write_str t (bb :: l)
            = match write_byte t bb with
              | some u => write_str u l
              | none => none := fun _ _ _ => rfl
      show write_str s (b :: (rest ++ l2)) = _
      rw [hstep, hstep]
      cases write_byte s b with
      | none => rfl
      | some s1 => exact ih s1

/-- Writing `n` copies of a printable byte from an in-range cursor with
room on the line: all writes land on the current row and the column
advances by `n`. -/
lemma write_str_replicate_ok (b : Nat) (hb : Printable b) :
    ∀ (n : Nat) (s : State), s.col + n ≤ BUFFER_WIDTH → s.row < BUFFER_HEIGHT →
      ∃ s', write_str s (List.replicate n b) = some s' ∧
        s'.col = s.col + n ∧ s'.row = s.row := by
  intro n
  induction n with
  | zero =>
      intro s _ _
      exact ⟨s, rfl, by omega, rfl⟩
  | succ n ih =>
      intro s hc hr
      have hlt : s.col < BUFFER_WIDTH := by omega
      have hstep := writeRaw_lt s b hlt hr
      obtain ⟨s', hs', hcol, hrow⟩ :=
        ih { s with grid := updCell s.grid s.row s.col ⟨b, s.color⟩, col := s.col + 1 }
          (by simp; omega) (by simpa using hr)
      refine ⟨s', ?_, ?_, by simpa using hrow⟩
      · show write_str s (b :: List.replicate n b) = some s'
        unfold write_str
        rw [write_byte_printable s b hb, hstep]
        exact hs'
      · rw [hcol]
        simp
        omega

/-- Backspace from the transient `col ≥ BUFFER_WIDTH` state blanks
`chars[row][col]` with `col` out of range: a panic. -/
lemma backspace_col_oob (s : State) (h0 : s.col ≠ 0) (hc : ¬ s.col < BUFFER_WIDTH) :
    backspace s = none := by
  unfold backspace setCell
  rw [if_neg (by simp [h0])]
  rw [if_neg h0]
  rw [if_neg (by simp [hc])]

/-! ### Claim theorems -/

/-- Claim C1: the spec asserts every `Writer` operation is total and
non-failing on every reachable state, with every grid access in bounds.
The code violates this: from the fresh writer, writing 80 printable
bytes leaves `col = 80` (the documented transient state), and a
backspace (0x08) then executes `self.buffer().chars[row][80]`, an
out-of-bounds access into the 25x80 grid (a panic, modelled as `none`).
This holds for every initial buffer content `g`. -/
theorem write_byte_not_total (g : Grid) :
    write_str { col := 0, row := 0, color := Color.new 15 0, grid := g }
      (List.replicate BUFFER_WIDTH 65 ++ [8]) = none := by
  obtain ⟨s', h1, hcol, hrow⟩ :=
    write_str_replicate_ok 65 (by decide) BUFFER_WIDTH
      { col := 0, row := 0, color := Color.new 15 0, grid := g }
      (by show (0:Nat) + BUFFER_WIDTH ≤ BUFFER_WIDTH; simp)
      (by show (0:Nat) < BUFFER_HEIGHT; decide)
  have hW : BUFFER_WIDTH = 80 := rfl
  have hc80 : s'.col = 80 := by rw [hcol]; simp [hW]
  rw [write_str_append, h1]
  show write_str s' [8] = none
  unfold write_str
  rw [write_byte_bs, backspace_col_oob s' (by omega) (by omega)]

/-- Claim C2 counterexample: the claim bounds `column ∈ [0, 80)` and
`row ∈ [0, 25)` after every public operation (the only allowed exception
being `column = 80` right after a printable write at the last column).
`set_cursor(100, 100)` returns with `column = 80` and `row = 25`,
violating both the strict row bound and the column exception. -/
theorem set_cursor_escapes_bounds :
    ¬ ((set_cursor initState 100 100).row < BUFFER_HEIGHT) ∧
    (set_cursor initState 100 100).row = BUFFER_HEIGHT ∧
    (set_cursor initState 100 100).col = BUFFER_WIDTH := by
  decide

/-- Claim C2 (amended): after every public `Writer` operation that
returns (does not panic), `column ≤ 80` and `row ≤ 25`; the initial
state satisfies these bounds, so they hold on every reachable state.
(The strict bounds of the original claim fail at `set_cursor`, which can
leave `column = 80` and `row = 25`.) -/
theorem cursor_bounds_inv (op : Op) (s s' : State) (hs : CursorInv s)
    (h : op.apply s = some s') : CursorInv s' := by
  cases op with
  | writeByte b =>
      exact write_byte_some_inv s b s' hs h
  | writeStr bs =>
      exact write_str_some_inv bs s s' hs h
  | clearScreen =>
      simp only [Op.apply, Option.some.injEq] at h
      subst h
      exact ⟨Nat.zero_le _, Nat.zero_le _⟩
  | setCursor x y =>
      simp only [Op.apply, Option.some.injEq] at h
      subst h
      exact ⟨clamp_le x BUFFER_WIDTH, clamp_le y BUFFER_HEIGHT⟩
  | setColor c =>
      simp only [Op.apply, Option.some.injEq] at h
      subst h
      exact hs

/-- Claim C2 witness: the invariant transported across a concrete
`set_cursor` call from the initial state. -/
theorem cursor_bounds_inv_witness : CursorInv (set_cursor initState 100 100) :=
  cursor_bounds_inv (Op.setCursor 100 100) initState (set_cursor initState 100 100)
    ⟨by decide, by decide⟩ rfl

/-- Claim C7: `set_cursor(x, y)` clamps `x` to `[0, 80]` and `y` to
`[0, 25]` (ceiling = the dimension itself) and assigns them to
column/row; no grid cell and no color changes.  Over `Nat`,
`clamp v 0 m = min v m`, so `x > 80` yields `column = 80` and `y > 25`
yields `row = 25`. -/
theorem set_cursor_clamps (s : State) (x y : Nat) :
    (set_cursor s x y).col = min x BUFFER_WIDTH ∧
    (set_cursor s x y).row = min y BUFFER_HEIGHT ∧
    (set_cursor s x y).grid = s.grid ∧
    (set_cursor s x y).color = s.color := by
  refine ⟨?_, ?_, rfl, rfl⟩
  · show clamp x 0 BUFFER_WIDTH = min x BUFFER_WIDTH
    unfold clamp
    split
    · omega
    · split <;> omega
  · show clamp y 0 BUFFER_HEIGHT = min y BUFFER_HEIGHT
    unfold clamp
    split
    · omega
    · split <;> omega

/-- Claim C9: `set_color` replaces only the active color; column, row
and every grid cell are unchanged, and a subsequent printable write
deposits the new color. -/
theorem set_color_frame (s : State) (c : Nat) :
    (set_color s c).color = c ∧
    (set_color s c).col = s.col ∧
    (set_color s c).row = s.row ∧
    (set_color s c).grid = s.grid ∧
    (∀ b, Printable b → s.col < BUFFER_WIDTH → s.row < BUFFER_HEIGHT →
      ∃ s', write_byte (set_color s c) b = some s' ∧
        s'.grid s.row s.col = ⟨b, c⟩) := by
  refine ⟨rfl, rfl, rfl, rfl, ?_⟩
  intro b hb hc hr
  rw [write_byte_printable _ b hb]
  rw [writeRaw_lt (set_color s c) b hc hr]
  refine ⟨_, rfl, ?_⟩
  show updCell s.grid s.row s.col ⟨b, c⟩ s.row s.col = _
  rw [updCell_apply]
  simp

/-- Claim C9 witness. -/
theorem set_color_frame_witness :
    (set_color initState 3).color = 3 ∧
    (∃ s', write_byte (set_color initState 3) 65 = some s' ∧
      s'.grid initState.row initState.col = ⟨65, 3⟩) :=
  ⟨(set_color_frame initState 3).1,
   (set_color_frame initState 3).2.2.2.2 65 (by decide) (by decide) (by decide)⟩

/-- Claim C8: `clear_screen` is idempotent — a second call yields
exactly the same state — and after it column = 0, row = 0, and every
grid cell is the blank cell with the current color. -/
theorem clear_screen_idempotent (s : State) :
    clear_screen (clear_screen s) = clear_screen s ∧
    (clear_screen s).col = 0 ∧
    (clear_screen s).row = 0 ∧
    (∀ r c, r < BUFFER_HEIGHT → c < BUFFER_WIDTH →
      (clear_screen s).grid r c = blank s.color) := by
  refine ⟨?_, rfl, rfl, ?_⟩
  · have hgrid : clearGrid (clearGrid s.grid (blank s.color)) (blank s.color)
        = clearGrid s.grid (blank s.color) := by
      funext r c
      rw [clearGrid_apply, clearGrid_apply]
      by_cases h : r < BUFFER_HEIGHT ∧ c < BUFFER_WIDTH
      · simp [h]
      · simp [h]
    show State.mk 0 0 s.color (clearGrid (clearGrid s.grid (blank s.color)) (blank s.color))
        = State.mk 0 0 s.color (clearGrid s.grid (blank s.color))
    exact congrArg (State.mk 0 0 s.color) hgrid
  · intro r c hr hc
    show clearGrid s.grid (blank s.color) r c = blank s.color
    rw [clearGrid_apply]
    simp [hr, hc]

/-- Claim C8 witness. -/
theorem clear_screen_idempotent_witness :
    clear_screen (clear_screen initState) = clear_screen initState ∧
    (clear_screen initState).grid 2 3 = blank initState.color :=
  ⟨(clear_screen_idempotent initState).1,
   (clear_screen_idempotent initState).2.2.2 2 3 (by decide) (by decide)⟩

/-- Claim C6: after `scroll`, each row `i < 24` holds the old row
`i + 1`, the last row is entirely blank cells with the color active at
scroll time, and the cursor is untouched. -/
theorem scroll_shifts_rows (s : State) :
    (∀ i c, i < BUFFER_HEIGHT - 1 → c < BUFFER_WIDTH →
      (scroll s).grid i c = s.grid (i + 1) c) ∧
    (∀ c, c < BUFFER_WIDTH → (scroll s).grid (BUFFER_HEIGHT - 1) c = blank s.color) ∧
    (scroll s).col = s.col ∧
    (scroll s).row = s.row :=
  ⟨fun i c hi hc => scroll_grid_shift s i c hi hc,
   fun c hc => scroll_grid_last s c hc, rfl, rfl⟩

/-- Claim C6 witness. -/
theorem scroll_shifts_rows_witness :
    (scroll initState).grid 0 0 = initState.grid 1 0 ∧
    (scroll initState).grid (BUFFER_HEIGHT - 1) 7 = blank initState.color ∧
    (scroll initState).col = initState.col :=
  ⟨(scroll_shifts_rows initState).1 0 0 (by decide) (by decide),
   (scroll_shifts_rows initState).2.1 7 (by decide),
   (scroll_shifts_rows initState).2.2.1⟩

/-- Claim C4 counterexample: the claim's third case says backspace at
`(row = r, col = c > 0)` blanks the cell `(r, c)` and moves to
`(r, c−1)`.  At the reachable transient state `col = 80` (after a
printable write at the last column) the blanking access
`chars[row][80]` is out of bounds: the code panics instead. -/
theorem backspace_at_transient_col :
    write_byte { col := BUFFER_WIDTH, row := 0, color := Color.new 15 0, grid := initGrid } 8
      = none := by
  rfl

/-- Claim C4 (amended): backspace behaves by cases on the cursor,
provided the cursor addresses a cell inside the grid: at `(0, 0)` it is
a no-op; at `(r > 0, 0)` with `r < 25` it blanks `(r, 0)` and moves to
`(r−1, 79)`, touching nothing else (in particular nothing on row `r−1`);
at `(r, c)` with `0 < c < 80` and `r < 25` it blanks `(r, c)` and moves
to `(r, c−1)`.  (At `col = 80` or `row = 25` the blanking access is out
of bounds — see the counterexample.) -/
theorem backspace_case_analysis (s : State) :
    (s.col = 0 → s.row = 0 → write_byte s 8 = some s) ∧
    (s.col = 0 → 0 < s.row → s.row < BUFFER_HEIGHT →
      ∃ s', write_byte s 8 = some s' ∧
        s'.grid s.row 0 = blank s.color ∧ s'.row = s.row - 1 ∧
        s'.col = BUFFER_WIDTH - 1 ∧ s'.color = s.color ∧
        ∀ r c, ¬ (r = s.row ∧ c = 0) → s'.grid r c = s.grid r c) ∧
    (0 < s.col → s.col < BUFFER_WIDTH → s.row < BUFFER_HEIGHT →
      ∃ s', write_byte s 8 = some s' ∧
        s'.grid s.row s.col = blank s.color ∧ s'.row = s.row ∧
        s'.col = s.col - 1 ∧ s'.color = s.color ∧
        ∀ r c, ¬ (r = s.row ∧ c = s.col) → s'.grid r c = s.grid r c) := by
  refine ⟨?_, ?_, ?_⟩
  · intro h0 h1
    rw [write_byte_bs, backspace_origin s h0 h1]
  · intro h0 h1 h2
    rw [write_byte_bs, backspace_col0 s h0 (by omega) h2]
    refine ⟨_, rfl, ?_, rfl, rfl, rfl, ?_⟩
    · show updCell s.grid s.row 0 (blank s.color) s.row 0 = blank s.color
      rw [updCell_apply]
      simp
    · intro r c hrc
      show updCell s.grid s.row 0 (blank s.color) r c = s.grid r c
      rw [updCell_apply, if_neg hrc]
  · intro h0 hc hr
    rw [write_byte_bs, backspace_colpos s (by omega) hc hr]
    refine ⟨_, rfl, ?_, rfl, rfl, rfl, ?_⟩
    · show updCell s.grid s.row s.col (blank s.color) s.row s.col = blank s.color
      rw [updCell_apply]
      simp
    · intro r c hrc
      show updCell s.grid s.row s.col (blank s.color) r c = s.grid r c
      rw [updCell_apply, if_neg hrc]

/-- Claim C4 witness: the three in-bounds cases at concrete states. -/
theorem backspace_case_analysis_witness :
    write_byte initState 8 = some initState ∧
    (∃ s', write_byte (set_cursor initState 0 3) 8 = some s' ∧
      s'.grid (set_cursor initState 0 3).row 0 = blank (set_cursor initState 0 3).color ∧
      s'.row = (set_cursor initState 0 3).row - 1 ∧
      s'.col = BUFFER_WIDTH - 1 ∧ s'.color = (set_cursor initState 0 3).color ∧
      ∀ r c, ¬ (r = (set_cursor initState 0 3).row ∧ c = 0) →
        s'.grid r c = (set_cursor initState 0 3).grid r c) ∧
    (∃ s', write_byte (set_cursor initState 5 3) 8 = some s' ∧
      s'.grid (set_cursor initState 5 3).row (set_cursor initState 5 3).col
        = blank (set_cursor initState 5 3).color ∧
      s'.row = (set_cursor initState 5 3).row ∧
      s'.col = (set_cursor initState 5 3).col - 1 ∧
      s'.color = (set_cursor initState 5 3).color ∧
      ∀ r c, ¬ (r = (set_cursor initState 5 3).row ∧ c = (set_cursor initState 5 3).col) →
        s'.grid r c = (set_cursor initState 5 3).grid r c) :=
  ⟨(backspace_case_analysis initState).1 (by decide) (by decide),
   (backspace_case_analysis (set_cursor initState 0 3)).2.1 (by decide) (by decide) (by decide),
   (backspace_case_analysis (set_cursor initState 5 3)).2.2 (by decide) (by decide) (by decide)⟩

/-- Claim C10: the blank written by backspace carries the Writer's
currently active color, not the color stored in the cell being erased:
for an arbitrary prior grid, after `set_color c` a backspace leaves
`(32, c)` in the blanked cell. -/
theorem backspace_blank_active_color (s : State) (c : Nat)
    (h0 : 0 < s.col) (hc : s.col < BUFFER_WIDTH) (hr : s.row < BUFFER_HEIGHT) :
    ∃ s', write_byte (set_color s c) 8 = some s' ∧
      s'.grid s.row s.col = ⟨32, c⟩ := by
  rw [write_byte_bs, backspace_colpos (set_color s c) (by show s.col ≠ 0; omega) hc hr]
  refine ⟨_, rfl, ?_⟩
  show updCell s.grid s.row s.col (blank c) s.row s.col = _
  rw [updCell_apply]
  simp [blank]

/-- Claim C10 witness: the erased cell previously held color 7; after
`set_color 9` the backspace blank carries color 9. -/
theorem backspace_blank_active_color_witness :
    ∃ s', write_byte
        (set_color { col := 5, row := 3, color := 7,
                     grid := fun _ _ => (⟨65, 7⟩ : Character) } 9) 8 = some s' ∧
      s'.grid 3 5 = ⟨32, 9⟩ :=
  backspace_blank_active_color
    { col := 5, row := 3, color := 7, grid := fun _ _ => (⟨65, 7⟩ : Character) } 9
    (by decide) (by decide) (by decide)

/-- Claim C5: writing `\t` is exactly writing
`TAB_WIDTH - col % TAB_WIDTH` plain spaces through the ordinary
write path (so wrap/scroll behavior is identical to plain spaces), and
from any in-range cursor the column lands on the next multiple of 4
(a full 4 ahead when the column is already a multiple of 4). -/
theorem tab_expansion (s : State) :
    write_byte s 9 = write_str s (List.replicate (TAB_WIDTH - s.col % TAB_WIDTH) 32) ∧
    (s.col < BUFFER_WIDTH → s.row < BUFFER_HEIGHT →
      ∃ s', write_byte s 9 = some s' ∧
        s'.col = TAB_WIDTH * (s.col / TAB_WIDTH) + TAB_WIDTH ∧ s'.row = s.row) := by
  constructor
  · rw [write_byte_tab, writeSpaces_eq_write_str]
  · intro hc hr
    obtain ⟨s', h1, h2, h3⟩ := writeSpaces_ok (TAB_WIDTH - s.col % TAB_WIDTH) s
      (by simp only [TAB_WIDTH, BUFFER_WIDTH] at hc ⊢; omega) hr
    refine ⟨s', by rw [write_byte_tab]; exact h1, ?_, h3⟩
    simp only [TAB_WIDTH, BUFFER_WIDTH] at h2 ⊢
    omega

/-- Claim C5 witness. -/
theorem tab_expansion_witness :
    write_byte initState 9
      = write_str initState (List.replicate (TAB_WIDTH - initState.col % TAB_WIDTH) 32) ∧
    (∃ s', write_byte initState 9 = some s' ∧
      s'.col = TAB_WIDTH * (initState.col / TAB_WIDTH) + TAB_WIDTH ∧
      s'.row = initState.row) :=
  ⟨(tab_expansion initState).1, (tab_expansion initState).2 (by decide) (by decide)⟩

lemma new_line_lt (s : State) (h : s.row < BUFFER_HEIGHT - 1) :
    new_line s = { s with col := 0, row := s.row + 1 } := by
  unfold new_line
  rw [if_pos h]

lemma new_line_last (s : State) (h : ¬ s.row < BUFFER_HEIGHT - 1) :
    new_line s = scroll { s with col := 0 } := by
  unfold new_line
  rw [if_neg h]

/-- Claim C3: from any in-range state at the last column, a printable
write leaves the transient `col = 80`; a second printable write first
performs the new-line transition (row + 1, or scroll at the last row)
and then places the byte, ending at `col = 1`.  No cell content is lost
other than the two written cells — and, when scroll runs, the dropped
top row (rows shift up, the first byte's cell moving to row 23). -/
theorem wrap_after_last_column (s : State) (b1 b2 : Nat)
    (hcol : s.col = BUFFER_WIDTH - 1) (hrow : s.row < BUFFER_HEIGHT)
    (hb1 : Printable b1) (hb2 : Printable b2) :
    ∃ s1 s2,
      write_byte s b1 = some s1 ∧ s1.col = BUFFER_WIDTH ∧ s1.row = s.row ∧
      write_byte s1 b2 = some s2 ∧ s2.col = 1 ∧
      (s.row < BUFFER_HEIGHT - 1 →
        s2.row = s.row + 1 ∧
        s2.grid s.row (BUFFER_WIDTH - 1) = ⟨b1, s.color⟩ ∧
        s2.grid (s.row + 1) 0 = ⟨b2, s.color⟩ ∧
        (∀ r c, ¬ (r = s.row ∧ c = BUFFER_WIDTH - 1) → ¬ (r = s.row + 1 ∧ c = 0) →
          s2.grid r c = s.grid r c)) ∧
      (s.row = BUFFER_HEIGHT - 1 →
        s2.row = BUFFER_HEIGHT - 1 ∧
        s2.grid (BUFFER_HEIGHT - 2) (BUFFER_WIDTH - 1) = ⟨b1, s.color⟩ ∧
        s2.grid (BUFFER_HEIGHT - 1) 0 = ⟨b2, s.color⟩ ∧
        (∀ r c, r < BUFFER_HEIGHT - 1 → c < BUFFER_WIDTH →
          ¬ (r = BUFFER_HEIGHT - 2 ∧ c = BUFFER_WIDTH - 1) →
          s2.grid r c = s.grid (r + 1) c) ∧
        (∀ c, 0 < c → c < BUFFER_WIDTH →
          s2.grid (BUFFER_HEIGHT - 1) c = blank s.color)) := by
  have hW : BUFFER_WIDTH = 80 := rfl
  have hH : BUFFER_HEIGHT = 25 := rfl
  have hc79 : s.col < BUFFER_WIDTH := by omega
  set s1 : State :=
    { s with grid := updCell s.grid s.row s.col ⟨b1, s.color⟩, col := s.col + 1 } with hs1
  have hw1 : write_byte s b1 = some s1 := by
    rw [write_byte_printable s b1 hb1]
    exact writeRaw_lt s b1 hc79 hrow
  have hs1col : s1.col = BUFFER_WIDTH := by
    show s.col + 1 = BUFFER_WIDTH
    omega
  have hge : s1.col ≥ BUFFER_WIDTH := by omega
  have hnlrow : (new_line s1).row < BUFFER_HEIGHT :=
    new_line_row_lt s1 (by show s.row < BUFFER_HEIGHT; exact hrow)
  set s2 : State :=
    { new_line s1 with
      grid := updCell (new_line s1).grid (new_line s1).row 0 ⟨b2, (new_line s1).color⟩,
      col := 1 } with hs2
  have hw2 : write_byte s1 b2 = some s2 := by
    rw [write_byte_printable s1 b2 hb2, writeRaw_ge s1 b2 hge, if_pos hnlrow]
  refine ⟨s1, s2, hw1, hs1col, rfl, hw2, rfl, ?_, ?_⟩
  · intro hA
    have hnl : new_line s1 = { s1 with col := 0, row := s1.row + 1 } :=
      new_line_lt s1 (by show s.row < BUFFER_HEIGHT - 1; exact hA)
    have hgrid : s2.grid
        = updCell (updCell s.grid s.row s.col ⟨b1, s.color⟩) (s.row + 1) 0 ⟨b2, s.color⟩ := by
      rw [hs2, hnl]
    have hrow2 : s2.row = s.row + 1 := by
      rw [hs2, hnl]
    refine ⟨hrow2, ?_, ?_, ?_⟩
    · rw [hgrid, updCell_apply, if_neg (by omega), updCell_apply, if_pos ⟨rfl, by omega⟩]
    · rw [hgrid, updCell_apply, if_pos ⟨rfl, rfl⟩]
    · intro r c h1 h2
      rw [hgrid, updCell_apply, if_neg h2, updCell_apply,
        if_neg (by rw [hcol]; exact h1)]
  · intro hB
    have hnl : new_line s1 = scroll { s1 with col := 0 } :=
      new_line_last s1 (by show ¬ s.row < BUFFER_HEIGHT - 1; omega)
    have hgrid : s2.grid
        = updCell (scroll { s1 with col := 0 }).grid s.row 0 ⟨b2, s.color⟩ := by
      rw [hs2, hnl]
      rfl
    have hrow2 : s2.row = BUFFER_HEIGHT - 1 := by
      rw [hs2, hnl]
      exact hB
    refine ⟨hrow2, ?_, ?_, ?_, ?_⟩
    · rw [hgrid, updCell_apply, if_neg (by omega),
        scroll_grid_shift _ _ _ (by omega) (by omega)]
      show updCell s.grid s.row s.col ⟨b1, s.color⟩ (BUFFER_HEIGHT - 2 + 1) (BUFFER_WIDTH - 1)
          = ⟨b1, s.color⟩
      rw [updCell_apply, if_pos ⟨by omega, by omega⟩]
    · rw [hgrid, updCell_apply, if_pos ⟨by omega, rfl⟩]
    · intro r c hr hc hne
      rw [hgrid, updCell_apply, if_neg (by omega), scroll_grid_shift _ _ _ hr hc]
      show updCell s.grid s.row s.col ⟨b1, s.color⟩ (r + 1) c = s.grid (r + 1) c
      rw [updCell_apply, if_neg (by omega)]
    · intro c hc0 hcW
      rw [hgrid, updCell_apply, if_neg (by omega), scroll_grid_last _ _ hcW]

/-- Claim C3 witness: the no-scroll case, from `(row 0, col 79)`. -/
theorem wrap_after_last_column_witness :
    ∃ s1 s2,
      write_byte (set_cursor initState 79 0) 65 = some s1 ∧
      s1.col = BUFFER_WIDTH ∧ s1.row = (set_cursor initState 79 0).row ∧
      write_byte s1 66 = some s2 ∧ s2.col = 1 ∧
      ((set_cursor initState 79 0).row < BUFFER_HEIGHT - 1 →
        s2.row = (set_cursor initState 79 0).row + 1 ∧
        s2.grid (set_cursor initState 79 0).row (BUFFER_WIDTH - 1)
          = ⟨65, (set_cursor initState 79 0).color⟩ ∧
        s2.grid ((set_cursor initState 79 0).row + 1) 0
          = ⟨66, (set_cursor initState 79 0).color⟩ ∧
        (∀ r c, ¬ (r = (set_cursor initState 79 0).row ∧ c = BUFFER_WIDTH - 1) →
          ¬ (r = (set_cursor initState 79 0).row + 1 ∧ c = 0) →
          s2.grid r c = (set_cursor initState 79 0).grid r c)) ∧
      ((set_cursor initState 79 0).row = BUFFER_HEIGHT - 1 →
        s2.row = BUFFER_HEIGHT - 1 ∧
        s2.grid (BUFFER_HEIGHT - 2) (BUFFER_WIDTH - 1)
          = ⟨65, (set_cursor initState 79 0).color⟩ ∧
        s2.grid (BUFFER_HEIGHT - 1) 0 = ⟨66, (set_cursor initState 79 0).color⟩ ∧
        (∀ r c, r < BUFFER_HEIGHT - 1 → c < BUFFER_WIDTH →
          ¬ (r = BUFFER_HEIGHT - 2 ∧ c = BUFFER_WIDTH - 1) →
          s2.grid r c = (set_cursor initState 79 0).grid (r + 1) c) ∧
        (∀ c, 0 < c → c < BUFFER_WIDTH →
          s2.grid (BUFFER_HEIGHT - 1) c = blank (set_cursor initState 79 0).color)) :=
  wrap_after_last_column (set_cursor initState 79 0) 65 66
    (by decide) (by decide) (by decide) (by decide)

end Vga
